import Mathlib

/-!
Verification development for the conversational controller in
`src/gemma_binding.cpp` (the `gcpp` namespace: `ReplGemma`, `decode`,
`completion`).

The inference engine (`GenerateGemma`), the tokenizer (`Encode`/`Decode`)
and the thread pools are external collaborators; they are modelled as
opaque function parameters with the interface the controller uses:
the engine receives the prompt tokens, the start position, the token
budget, and the Mersenne-twister seed the controller passed in, and
drives the stream callback once per emitted token.  Standard-output side
channels that carry no token text (the "." progress dots on stderr, the
verbosity-gated blank lines and "[ End ]" marker, throughput statistics)
are not tracked; the list of emitted token texts is.
-/

set_option maxRecDepth 10000

namespace GemmaBinding

/-- `gcpp::EOS_ID`, the end-of-sequence token id of the external engine
(`gemma.h`); the controller only compares against it. -/
def EOS_ID : Int := 1

/-- The literal beginning-of-sequence token id that `ReplGemma` inserts:
`prompt.insert(prompt.begin(), 2)`. -/
def BOS_ID : Int := 2

/-- `model.model_training` values used by the controller. -/
inductive ModelTraining where
  | GEMMA_IT
  | GEMMA_PT
  deriving Repr, DecidableEq

/-- The external tokenizer collaborator: `Encode(text, &tokens)` and
`Decode(tokens, &text)`. -/
structure Tokenizer where
  encode : String → List Int
  decode : List Int → String

/-- The model handle as the controller sees it: training kind plus the
tokenizer. -/
structure Model where
  training : ModelTraining
  tok : Tokenizer

/-- The external generation engine `GenerateGemma`: given the prompt
tokens, the start position (`abs_pos`), `args.max_tokens`, and the seed
of the `std::mt19937` passed by reference, it produces the finite
sequence of token events it feeds to the stream callback (prompt-echo
positions included), zero or more. -/
def Engine : Type := List Int → Nat → Nat → Nat → List Int

/-- The inference arguments the controller reads (`InferenceArgs`). -/
structure Args where
  max_tokens : Nat
  multiturn : Bool
  deterministic : Bool
  deriving Repr, DecidableEq

/-- The mutable state captured by `ReplGemma`'s stream callback:
`abs_pos`, `current_pos`, the RNG (tracked by its current seed value),
and the token texts written to standard output. -/
structure StreamState where
  abs_pos : Nat
  current_pos : Nat
  rng : Nat
  emitted : List String
  deriving Repr, DecidableEq

/-- `token_text.erase(0, token_text.find_first_not_of(" \t\n"))`:
drop the longest leading run of space, tab and newline characters. -/
def isStripChar (c : Char) : Bool :=
  c == ' ' || c == '\t' || c == '\n'

/-- Leading-whitespace stripping applied to the first generated token of
a turn. -/
def stripLeadingWs (s : String) : String :=
  String.mk (s.data.dropWhile isStripChar)

/-- One invocation of `ReplGemma`'s `stream_token` lambda
(`gemma_binding.cpp` lines 90-134): increment `abs_pos` and
`current_pos`, then classify the token (prompt echo / end-of-sequence /
generated text). -/
def streamToken (tok : Tokenizer) (args : Args) (prompt_size : Nat)
    (s : StreamState) (token : Int) : StreamState :=
  let s := { s with abs_pos := s.abs_pos + 1, current_pos := s.current_pos + 1 }
  if s.current_pos < prompt_size then
    s
  else if token = EOS_ID then
    if !args.multiturn then
      let s := { s with abs_pos := 0 }
      if args.deterministic then { s with rng := 42 } else s
    else
      s
  else
    let token_text := tok.decode [token]
    let token_text :=
      if s.current_pos = prompt_size + 1 then stripLeadingWs token_text
      else token_text
    { s with emitted := s.emitted ++ [token_text] }

/-- Fold the stream callback over the engine's event sequence: the state
after `GenerateGemma` returns. -/
def runEvents (tok : Tokenizer) (args : Args) (prompt_size : Nat)
    (s : StreamState) (events : List Int) : StreamState :=
  events.foldl (streamToken tok args prompt_size) s

/-- All intermediate states of a fold, initial state included; used to
express reachability of callback states. -/
def scanStates {σ τ : Type} (f : σ → τ → σ) (s : σ) : List τ → List σ
  | [] => [s]
  | t :: ts => s :: scanStates f (f s t) ts

/-- Prompt formatting in the interactive loop (lines 155-166): wrap with
turn markers for instruction-tuned models, prepending an end-of-turn
marker on dialogue continuations (`abs_pos > 0`). -/
def formatPrompt (training : ModelTraining) (abs_pos : Nat) (raw : String) :
    String :=
  match training with
  | ModelTraining.GEMMA_IT =>
    let p := "<start_of_turn>user\n" ++ raw ++ "<end_of_turn>\n<start_of_turn>model\n"
    if abs_pos > 0 then "<end_of_turn>\n" ++ p else p
  | ModelTraining.GEMMA_PT => raw

/-- Quit-sentinel test of the interactive loop (line 150):
`prompt_string == "%q" || prompt_string == "%Q"`. -/
def isQuit (line : String) : Bool :=
  line == "%q" || line == "%Q"

/-- The message printed when the `while (abs_pos < args.max_tokens)`
loop falls through (lines 196-199). -/
def budgetMessage (m : Nat) : String :=
  "max_tokens (" ++ toString m ++
    ") exceeded. Use a larger value if desired using the --max_tokens " ++
    "command line flag.\n"

/-- How the interactive loop ended: quit sentinel / input exhaustion
(the early `return`), or falling out of the budget-guarded `while`. -/
inductive ExitKind where
  | quit
  | budget
  deriving Repr, DecidableEq

/-- Record of one generation turn: `abs_pos` at the start of the turn,
the raw input line, and the token sequence sent to the engine. -/
structure TurnEntry where
  absStart : Nat
  line : String
  sent : List Int
  deriving Repr, DecidableEq

/-- Result of a full interactive session. -/
structure SessionResult where
  state : StreamState
  turns : Nat
  turnLog : List TurnEntry
  trace : List StreamState
  exit : ExitKind
  budgetMsg : Option String
  deriving Repr, DecidableEq

/-- The body of `ReplGemma`'s session loop (lines 136-199), one
recursion step per input line: check the token budget, reset
`current_pos`, read a line (an empty input list models `std::cin`
failure), test the quit sentinel, format and encode the prompt, insert
the beginning-of-sequence token when `abs_pos == 0`, and run the engine
through the stream callback. -/
def sessionLoop (m : Model) (eng : Engine) (args : Args) :
    List String → StreamState → Nat → List TurnEntry → List StreamState →
    SessionResult
  | [], s, turns, log, trace =>
    if s.abs_pos < args.max_tokens then
      let s0 := { s with current_pos := 0 }
      ⟨s0, turns, log, trace ++ [s0], ExitKind.quit, none⟩
    else
      ⟨s, turns, log, trace ++ [s], ExitKind.budget,
        some (budgetMessage args.max_tokens)⟩
  | line :: rest, s, turns, log, trace =>
    if s.abs_pos < args.max_tokens then
      let s0 := { s with current_pos := 0 }
      if isQuit line then
        ⟨s0, turns, log, trace ++ [s0], ExitKind.quit, none⟩
      else
        let fp := formatPrompt m.training s0.abs_pos line
        let toks0 := m.tok.encode fp
        let toks := if s0.abs_pos = 0 then BOS_ID :: toks0 else toks0
        let psize := toks.length
        let events := eng toks s0.abs_pos args.max_tokens s0.rng
        let s1 := runEvents m.tok args psize s0 events
        sessionLoop m eng args rest s1 (turns + 1)
          (log ++ [⟨s0.abs_pos, line, toks⟩])
          (trace ++ scanStates (streamToken m.tok args psize) s0 events)
    else
      ⟨s, turns, log, trace ++ [s], ExitKind.budget,
        some (budgetMessage args.max_tokens)⟩

/-- `ReplGemma` (lines 69-200): seed the RNG (42 when deterministic,
otherwise the `std::random_device` draw `rdSeed`), then run the session
loop from `abs_pos = 0`, `current_pos = 0`. -/
def ReplGemma (m : Model) (eng : Engine) (args : Args) (rdSeed : Nat)
    (inputs : List String) : SessionResult :=
  let seed := if args.deterministic then 42 else rdSeed
  sessionLoop m eng args inputs ⟨0, 0, seed, []⟩ 0 []
    [⟨0, 0, seed, []⟩]

/-- Prompt formatting in the completion service (lines 267-272): wrap
with turn markers for instruction-tuned models; no continuation marker
(start position is always 0). -/
def formatCompletionPrompt (training : ModelTraining) (raw : String) :
    String :=
  match training with
  | ModelTraining.GEMMA_IT =>
    "<start_of_turn>user\n" ++ raw ++ "<end_of_turn>\n<start_of_turn>model\n"
  | ModelTraining.GEMMA_PT => raw

/-- Result of the completion service `decode`: the returned string
(`none` models the `std::out_of_range` abort of
`generated_text.substr(prompt_string.size())`), the value of the
by-reference `prompt_string` after the call, the token sequence sent to
`GenerateGemma`, and the seed handed to the engine's RNG. -/
structure DecodeResult where
  result : Option String
  promptStringAfter : String
  sentTokens : List Int
  seedUsed : Nat
  deriving Repr, DecidableEq

/-- The completion service `decode` (lines 258-290): seed the RNG from
`std::random_device` (modelled by the draw `rdSeed`), overwrite the
by-reference prompt string with its formatted version, encode it, run
the engine with `start_pos = 0` collecting every callback token id,
batch-decode the collected ids, and drop the formatted prompt's length
in characters from the front. -/
def decode (m : Model) (eng : Engine) (args : Args) (rdSeed : Nat)
    (prompt_string : String) : DecodeResult :=
  let prompt_string := formatCompletionPrompt m.training prompt_string
  let prompt := m.tok.encode prompt_string
  let generated_tokens :=
    (eng prompt 0 args.max_tokens rdSeed).foldl
      (fun acc t => acc ++ [t]) []
  let generated_text := m.tok.decode generated_tokens
  let res :=
    if prompt_string.length ≤ generated_text.length then
      some (generated_text.drop prompt_string.length)
    else
      none
  ⟨res, prompt_string, prompt, rdSeed⟩

/-- `completion` (lines 292-308): build the pools and the model, then
delegate to `decode` with the same by-reference prompt string. -/
def completion (m : Model) (eng : Engine) (args : Args) (rdSeed : Nat)
    (prompt_string : String) : DecodeResult :=
  decode m eng args rdSeed prompt_string

/-! ### Concrete collaborator instances

Concrete tokenizers and engines used to evaluate the controller on
closed inputs.  They satisfy the collaborator interface of §6 of the
specification; nothing in the controller constrains them further. -/

/-- One token per character, token id = code point. -/
def charTok : Tokenizer :=
  ⟨fun s => s.data.map (fun c => (c.toNat : Int)),
   fun ts => String.mk (ts.map (fun t => Char.ofNat t.toNat))⟩

/-- A tokenizer whose token ids are all ≥ 3, so it never produces the
literal beginning-of-sequence id 2 itself. -/
def noBosTok : Tokenizer :=
  ⟨fun s => s.data.map (fun c => ((c.toNat + 3 : Nat) : Int)),
   fun ts => String.mk (ts.map (fun t => Char.ofNat (t.toNat - 3)))⟩

/-- A pretrained-model handle over `charTok`. -/
def charModelPT : Model := ⟨ModelTraining.GEMMA_PT, charTok⟩

/-- A pretrained-model handle over `noBosTok`. -/
def noBosModelPT : Model := ⟨ModelTraining.GEMMA_PT, noBosTok⟩

/-- An instruction-tuned-model handle over `charTok`. -/
def charModelIT : Model := ⟨ModelTraining.GEMMA_IT, charTok⟩

/-- Engine that echoes the prompt positions and stops (no generated
tokens, no end-of-sequence event). -/
def echoEng : Engine := fun toks _ _ _ => toks

/-- Engine that echoes the prompt positions and then signals
end-of-sequence. -/
def echoEosEng : Engine := fun toks _ _ _ => toks ++ [EOS_ID]

/-- Engine whose single generated token depends on the RNG seed it was
handed — a conforming engine, since the interface passes it the RNG. -/
def seedEng : Engine := fun toks _ _ seed => toks ++ [((65 + seed % 26 : Nat) : Int)]

/-- Engine whose first generated token decodes (under `charTok`) to a
newline, followed by a visible character. -/
def nlEng : Engine := fun toks _ _ _ => toks ++ [10, 66]

/-- Engine that emits no callback events at all (the interface allows
zero invocations). -/
def emptyEng : Engine := fun _ _ _ _ => []

/-- The token sequence the interactive loop sends to the engine for a
recorded turn: the encoded formatted line, with the beginning-of-sequence
token prepended exactly when the turn began at `abs_pos = 0`. -/
def entrySent (m : Model) (e : TurnEntry) : List Int :=
  let enc := m.tok.encode (formatPrompt m.training e.absStart e.line)
  if e.absStart = 0 then BOS_ID :: enc else enc

/-- Non-multiturn, deterministic arguments with a large budget. -/
def detArgs : Args := ⟨100, false, true⟩

/-- Multiturn, deterministic arguments with a large budget. -/
def mtArgs : Args := ⟨100, true, true⟩

end GemmaBinding

namespace GemmaBinding

/-! ### Helper lemmas -/

/-- The collect-mode callback `generated_tokens.push_back(token)` folded
over the event stream accumulates exactly the event stream. -/
theorem foldl_push_eq_append (l acc : List Int) :
    l.foldl (fun acc t => acc ++ [t]) acc = acc ++ l := by
  induction l generalizing acc with
  | nil => simp
  | cons t ts ih => simp [List.foldl_cons, ih]

/-- Every state listed by `scanStates` satisfies a predicate preserved
by the step function. -/
theorem scanStates_forall {σ τ : Type} (f : σ → τ → σ) (P : σ → Prop)
    (hf : ∀ s t, P s → P (f s t)) :
    ∀ (l : List τ) (s : σ), P s → ∀ x ∈ scanStates f s l, P x := by
  intro l
  induction l with
  | nil =>
    intro s hs x hx
    simp only [scanStates, List.mem_singleton] at hx
    exact hx ▸ hs
  | cons t ts ih =>
    intro s hs x hx
    simp only [scanStates, List.mem_cons] at hx
    rcases hx with rfl | hx
    · exact hs
    · exact ih (f s t) (hf s t hs) x hx

/-- A fold preserves a predicate preserved by the step function. -/
theorem foldl_forall {σ τ : Type} (f : σ → τ → σ) (P : σ → Prop)
    (hf : ∀ s t, P s → P (f s t)) :
    ∀ (l : List τ) (s : σ), P s → P (l.foldl f s) := by
  intro l
  induction l with
  | nil => intro s hs; simpa
  | cons t ts ih => intro s hs; exact ih (f s t) (hf s t hs)

/-- Case analysis of the stream callback's position counters:
`current_pos` always advances by one, and `abs_pos` either advances by
one or is reset to zero — the latter exactly in the non-multiturn
end-of-sequence branch, outside the prompt-echo region. -/
theorem streamToken_counters (tok : Tokenizer) (args : Args) (p : Nat)
    (s : StreamState) (t : Int) :
    (streamToken tok args p s t).current_pos = s.current_pos + 1 ∧
    ((streamToken tok args p s t).abs_pos = s.abs_pos + 1 ∨
      ((streamToken tok args p s t).abs_pos = 0 ∧ args.multiturn = false ∧
        t = EOS_ID ∧ p ≤ s.current_pos + 1)) := by
  unfold streamToken
  by_cases hc : s.current_pos + 1 < p
  · simp [hc]
  · by_cases ht : t = EOS_ID
    · cases hm : args.multiturn
      · by_cases hd : args.deterministic <;> simp [hc, ht, hm, hd] <;> omega
      · simp [hc, ht, hm]
    · simp [hc, ht]

/-- In the non-multiturn end-of-sequence branch the callback zeroes
`abs_pos` and, when deterministic, reseeds the RNG to 42. -/
theorem streamToken_eos_reset (tok : Tokenizer) (args : Args) (p : Nat)
    (s : StreamState) (t : Int) (hm : args.multiturn = false)
    (ht : t = EOS_ID) (hp : p ≤ s.current_pos + 1) :
    (streamToken tok args p s t).abs_pos = 0 ∧
    (args.deterministic = true → (streamToken tok args p s t).rng = 42) := by
  unfold streamToken
  have hc : ¬s.current_pos + 1 < p := by omega
  by_cases hd : args.deterministic <;> simp [hc, ht, hm, hd]

/-- The first generated token of a turn (post-increment position
`prompt_size + 1`) is emitted with its leading whitespace stripped. -/
theorem streamToken_emit_first (tok : Tokenizer) (args : Args) (p : Nat)
    (s : StreamState) (t : Int) (ht : t ≠ EOS_ID)
    (hc : s.current_pos + 1 = p + 1) :
    (streamToken tok args p s t).emitted =
      s.emitted ++ [stripLeadingWs (tok.decode [t])] := by
  unfold streamToken
  have h1 : ¬s.current_pos + 1 < p := by omega
  simp [h1, ht, hc]

/-- Tokens after the first generated one are emitted verbatim. -/
theorem streamToken_emit_later (tok : Tokenizer) (args : Args) (p : Nat)
    (s : StreamState) (t : Int) (ht : t ≠ EOS_ID)
    (hc : p + 1 < s.current_pos + 1) :
    (streamToken tok args p s t).emitted = s.emitted ++ [tok.decode [t]] := by
  unfold streamToken
  have h1 : ¬s.current_pos + 1 < p := by omega
  have h2 : ¬s.current_pos + 1 = p + 1 := by omega
  simp [h1, h2, ht]

/-- In a multiturn session the stream callback preserves
`current_pos ≤ abs_pos`: both counters are incremented together and the
end-of-sequence reset branch is not taken. -/
theorem streamToken_le (tok : Tokenizer) (args : Args) (p : Nat)
    (hmt : args.multiturn = true) (s : StreamState) (t : Int)
    (h : s.current_pos ≤ s.abs_pos) :
    (streamToken tok args p s t).current_pos ≤
      (streamToken tok args p s t).abs_pos := by
  obtain ⟨hcur, habs⟩ := streamToken_counters tok args p s t
  rcases habs with h1 | ⟨_, hmf, _⟩
  · omega
  · rw [hmf] at hmt
    cases hmt

/-- Multiturn trace invariant: starting from a state with
`current_pos ≤ abs_pos` and a trace of such states, every state the
session loop records keeps `current_pos ≤ abs_pos`. -/
theorem sessionLoop_trace_le (m : Model) (eng : Engine) (args : Args)
    (hmt : args.multiturn = true) :
    ∀ (inputs : List String) (s : StreamState) (turns : Nat)
      (log : List TurnEntry) (trace : List StreamState),
      s.current_pos ≤ s.abs_pos →
      (∀ x ∈ trace, x.current_pos ≤ x.abs_pos) →
      ∀ x ∈ (sessionLoop m eng args inputs s turns log trace).trace,
        x.current_pos ≤ x.abs_pos := by
  intro inputs
  induction inputs with
  | nil =>
    intro s turns log trace hs htr x hx
    simp only [sessionLoop] at hx
    split at hx
    · simp only [List.mem_append, List.mem_singleton] at hx
      rcases hx with hx | rfl
      · exact htr x hx
      · exact Nat.zero_le _
    · simp only [List.mem_append, List.mem_singleton] at hx
      rcases hx with hx | rfl
      · exact htr x hx
      · exact hs
  | cons line rest ih =>
    intro s turns log trace hs htr x hx
    simp only [sessionLoop] at hx
    split at hx
    · split at hx
      · simp only [List.mem_append, List.mem_singleton] at hx
        rcases hx with hx | rfl
        · exact htr x hx
        · exact Nat.zero_le _
      · refine ih _ _ _ _ ?_ ?_ x hx
        · exact foldl_forall _ _
            (fun s' t' h' => streamToken_le _ _ _ hmt s' t' h') _ _
            (Nat.zero_le _)
        · intro y hy
          rcases List.mem_append.mp hy with hy | hy
          · exact htr y hy
          · exact scanStates_forall _ _
              (fun s' t' h' => streamToken_le _ _ _ hmt s' t' h') _ _
              (Nat.zero_le _) y hy
    · simp only [List.mem_append, List.mem_singleton] at hx
      rcases hx with hx | rfl
      · exact htr x hx
      · exact hs

/-- Every turn the session loop records sends exactly `entrySent`: the
encoded formatted prompt, BOS-prefixed iff the turn began at
`abs_pos = 0`. -/
theorem sessionLoop_turnLog (m : Model) (eng : Engine) (args : Args) :
    ∀ (inputs : List String) (s : StreamState) (turns : Nat)
      (log : List TurnEntry) (trace : List StreamState),
      (∀ e ∈ log, e.sent = entrySent m e) →
      ∀ e ∈ (sessionLoop m eng args inputs s turns log trace).turnLog,
        e.sent = entrySent m e := by
  intro inputs
  induction inputs with
  | nil =>
    intro s turns log trace hlog e he
    simp only [sessionLoop] at he
    split at he <;> exact hlog e he
  | cons line rest ih =>
    intro s turns log trace hlog e he
    simp only [sessionLoop] at he
    split at he
    · split at he
      · exact hlog e he
      · refine ih _ _ _ _ ?_ e he
        intro e' he'
        rcases List.mem_append.mp he' with he' | he'
        · exact hlog e' he'
        · obtain rfl := List.mem_singleton.mp he'
          simp [entrySent]
    · exact hlog e he

/-- The number of performed generation turns never decreases through
the session loop. -/
theorem sessionLoop_turns_le (m : Model) (eng : Engine) (args : Args) :
    ∀ (inputs : List String) (s : StreamState) (turns : Nat)
      (log : List TurnEntry) (trace : List StreamState),
      turns ≤ (sessionLoop m eng args inputs s turns log trace).turns := by
  intro inputs
  induction inputs with
  | nil =>
    intro s turns log trace
    simp only [sessionLoop]
    split <;> simp
  | cons line rest ih =>
    intro s turns log trace
    simp only [sessionLoop]
    split
    · split
      · simp
      · exact Nat.le_trans (Nat.le_succ turns) (ih _ _ _ _)
    · simp

/-- When the completion service returns a string, that string is the
batch decode of every collected callback token, with the formatted
prompt's character count dropped from the front. -/
theorem decode_result_eq (m : Model) (eng : Engine) (args : Args)
    (rd : Nat) (p r : String)
    (h : (decode m eng args rd p).result = some r) :
    r = (m.tok.decode
          (eng (m.tok.encode (formatCompletionPrompt m.training p)) 0
            args.max_tokens rd)).drop
        (formatCompletionPrompt m.training p).length := by
  simp only [decode, foldl_push_eq_append, List.nil_append] at h
  split at h
  · exact (Option.some.inj h).symm
  · cases h

/-! ### Claim theorems -/

/-- Claim C1, counterexample: the completion service seeds its RNG from
`std::random_device` on every call (lines 263-265) and never reads
`args.deterministic`.  With `deterministic = true` in the configuration
and a conforming engine whose generated token depends on the RNG seed it
is handed, two independent completion calls with the identical prompt
"hi" — whose fresh random-device draws are 0 and 1 — return different
strings ("A" versus "B"), refuting byte-identical output. -/
theorem C1_counterexample :
    detArgs.deterministic = true ∧
    decide ((decode charModelPT seedEng detArgs 0 "hi").result =
      (decode charModelPT seedEng detArgs 1 "hi").result) = false := by
  constructor
  · rfl
  · rfl

/-- Claim C1, amended: the completion service ignores the deterministic
flag — its result is invariant under any value of the flag — and the
RNG seed it hands the engine is the fresh random-device draw of that
call; hence two completion calls are byte-identical only when the
engine behaves the same on the two drawn seeds, not unconditionally. -/
theorem C1_completion_rng (m : Model) (eng : Engine) (mx : Nat)
    (mt d₁ d₂ : Bool) (rd : Nat) (p : String) :
    decode m eng ⟨mx, mt, d₁⟩ rd p = decode m eng ⟨mx, mt, d₂⟩ rd p ∧
    (decode m eng ⟨mx, mt, d₁⟩ rd p).seedUsed = rd :=
  ⟨rfl, rfl⟩

/-- Claim C2, counterexample: in a non-multiturn interactive session
whose turns end with the end-of-sequence token, `abs_pos` returns to 0
after every turn, so the BOS token is inserted again on the next turn:
with input lines "a" and "b" the session sends BOS twice, not exactly
once; and the completion service never inserts BOS (its token sequence
for prompt "hi" contains no BOS token at all). -/
theorem C2_counterexample :
    ((ReplGemma charModelPT echoEosEng detArgs 0 ["a", "b"]).turnLog.map
      (fun e => e.sent.count 2)).sum = 2 ∧
    (decode charModelPT echoEosEng detArgs 0 "hi").sentTokens.count 2 = 0 := by
  constructor
  · rfl
  · rfl

/-- Claim C2, amended: provided the tokenizer itself never produces the
BOS id, the interactive session loop's token sequence for a turn
contains the BOS token exactly once when the turn begins at
`abs_pos = 0` (the first turn, or any turn after `abs_pos` has returned
to 0, e.g. via a non-multiturn reset) and never on other turns; the
completion service never inserts a BOS token. -/
theorem C2_bos_insertion (m : Model) (eng : Engine) (args : Args)
    (rd : Nat) (inputs : List String) (p : String)
    (hBos : ∀ s, BOS_ID ∉ m.tok.encode s) :
    (∀ e ∈ (ReplGemma m eng args rd inputs).turnLog,
      e.sent.count BOS_ID = if e.absStart = 0 then 1 else 0) ∧
    (decode m eng args rd p).sentTokens.count BOS_ID = 0 := by
  constructor
  · intro e he
    simp only [ReplGemma] at he
    have hw := sessionLoop_turnLog m eng args inputs _ 0 [] _
      (fun e' he' => absurd he' (List.not_mem_nil e')) e he
    rw [hw]
    by_cases h0 : e.absStart = 0
    · simp [entrySent, h0, List.count_cons_self,
        List.count_eq_zero.mpr (hBos _)]
    · simp [entrySent, h0, List.count_eq_zero.mpr (hBos _)]
  · simp only [decode]
    exact List.count_eq_zero.mpr (hBos _)

/-- Claim C2, witness: with a tokenizer whose ids are all at least 3,
the completion service's token sequence indeed carries no BOS token. -/
theorem C2_bos_insertion_witness :
    (decode noBosModelPT echoEosEng detArgs 0 "hi").sentTokens.count
      BOS_ID = 0 := by
  have hBos : ∀ s : String, BOS_ID ∉ noBosModelPT.tok.encode s := by
    intro s hmem
    simp only [noBosModelPT, noBosTok, BOS_ID, List.mem_map] at hmem
    obtain ⟨c, _, hc⟩ := hmem
    omega
  exact (C2_bos_insertion noBosModelPT echoEosEng detArgs 0 ["a"] "hi"
    hBos).2

/-- Claim C3: in completion mode the returned string is the decode of
the full accumulated token sequence with exactly the first
`prompt_string.length` characters removed, `prompt_string` being the
formatted prompt passed to `Encode`. -/
theorem C3_completion_trim (m : Model) (eng : Engine) (args : Args)
    (rd : Nat) (p r : String)
    (h : (decode m eng args rd p).result = some r) :
    r = (m.tok.decode
          (eng (m.tok.encode (formatCompletionPrompt m.training p)) 0
            args.max_tokens rd)).drop
        (formatCompletionPrompt m.training p).length :=
  decode_result_eq m eng args rd p r h

/-- Claim C3, witness: a concrete completion run returning "A". -/
theorem C3_completion_trim_witness :
    "A" = (charModelPT.tok.decode
      (seedEng (charModelPT.tok.encode
        (formatCompletionPrompt charModelPT.training "hi")) 0
        detArgs.max_tokens 0)).drop
      (formatCompletionPrompt charModelPT.training "hi").length :=
  C3_completion_trim charModelPT seedEng detArgs 0 "hi" "A" (by decide)

/-- Claim C4, counterexample: the Collect-mode callback of the
completion service (lines 279-282) appends raw token ids and never
strips whitespace.  With a first generated token that decodes to a
newline, the returned completion begins with that unstripped newline:
the result is "\nB" where the claimed stripping would give "B".  (The
second conjunct records that the retained leading character is exactly
one the stripping rule removes.) -/
theorem C4_counterexample :
    (decode charModelPT nlEng detArgs 0 "hi").result = some "\nB" ∧
    isStripChar '\n' = true := by
  constructor
  · rfl
  · rfl

/-- Claim C4, amended: in Interactive mode the first generated token of
a turn (post-increment `current_pos = prompt_size + 1`) is emitted with
leading space/tab/newline characters stripped and every later token of
the turn is emitted verbatim; Collect mode (the completion service)
accumulates raw token ids and returns the batch decode with only the
prompt-length prefix dropped — no whitespace stripping. -/
theorem C4_first_token_strip (tok : Tokenizer) (args : Args) (p : Nat)
    (s : StreamState) (t : Int) (m : Model) (eng : Engine) (cargs : Args)
    (rd : Nat) (ps r : String) :
    (t ≠ EOS_ID → s.current_pos + 1 = p + 1 →
      (streamToken tok args p s t).emitted =
        s.emitted ++ [stripLeadingWs (tok.decode [t])]) ∧
    (t ≠ EOS_ID → p + 1 < s.current_pos + 1 →
      (streamToken tok args p s t).emitted =
        s.emitted ++ [tok.decode [t]]) ∧
    ((decode m eng cargs rd ps).result = some r →
      r = (m.tok.decode
            (eng (m.tok.encode (formatCompletionPrompt m.training ps)) 0
              cargs.max_tokens rd)).drop
          (formatCompletionPrompt m.training ps).length) :=
  ⟨fun ht hc => streamToken_emit_first tok args p s t ht hc,
   fun ht hc => streamToken_emit_later tok args p s t ht hc,
   fun h => decode_result_eq m eng cargs rd ps r h⟩

/-- Claim C4, witness: token 66 at the first generated position is
emitted stripped, at a later position verbatim, and a concrete Collect
run returns the unstripped batch-decode suffix. -/
theorem C4_first_token_strip_witness :
    (streamToken charTok detArgs 1 ⟨1, 1, 42, []⟩ 66).emitted =
      [] ++ [stripLeadingWs (charTok.decode [66])] ∧
    (streamToken charTok detArgs 1 ⟨2, 2, 42, []⟩ 66).emitted =
      [] ++ [charTok.decode [66]] ∧
    "\nB" = (charModelPT.tok.decode
      (nlEng (charModelPT.tok.encode
        (formatCompletionPrompt charModelPT.training "hi")) 0
        detArgs.max_tokens 0)).drop
      (formatCompletionPrompt charModelPT.training "hi").length :=
  ⟨(C4_first_token_strip charTok detArgs 1 ⟨1, 1, 42, []⟩ 66 charModelPT
      nlEng detArgs 0 "hi" "\nB").1 (by decide) rfl,
   (C4_first_token_strip charTok detArgs 1 ⟨2, 2, 42, []⟩ 66 charModelPT
      nlEng detArgs 0 "hi" "\nB").2.1 (by decide) (by decide),
   (C4_first_token_strip charTok detArgs 1 ⟨1, 1, 42, []⟩ 66 charModelPT
      nlEng detArgs 0 "hi" "\nB").2.2 (by decide)⟩

/-- Claim C5, counterexample: `current_pos ≤ abs_pos` is not an
invariant of every reachable state.  In a non-multiturn session whose
turn ends with end-of-sequence, the callback zeroes `abs_pos` while
`current_pos` keeps the turn's count (state `abs_pos = 0`,
`current_pos = 3` is reached), so the trace contains a state with
`abs_pos < current_pos`. -/
theorem C5_counterexample :
    (ReplGemma charModelPT echoEosEng detArgs 0 ["a"]).trace.any
      (fun st => st.abs_pos < st.current_pos) = true := by
  rfl

/-- Claim C5, amended: in a multiturn session (where the
end-of-sequence reset branch never fires) `current_pos ≤ abs_pos` holds
in every reachable state: `current_pos` is reset to 0 at each new turn
while `abs_pos` is monotonic; with `multiturn = false` the
end-of-sequence reset zeroes `abs_pos` mid-turn and the inequality can
fail. -/
theorem C5_pos_invariant (m : Model) (eng : Engine) (args : Args)
    (rd : Nat) (inputs : List String) (hmt : args.multiturn = true) :
    ∀ st ∈ (ReplGemma m eng args rd inputs).trace,
      st.current_pos ≤ st.abs_pos := by
  intro st hst
  simp only [ReplGemma] at hst
  refine sessionLoop_trace_le m eng args hmt inputs _ 0 [] _
    (Nat.le_refl 0) ?_ st hst
  intro x hx
  obtain rfl := List.mem_singleton.mp hx
  exact Nat.le_refl 0

/-- Claim C5, witness: the invariant evaluated on a state of a concrete
multiturn session. -/
theorem C5_pos_invariant_witness :
    (⟨0, 0, 42, []⟩ : StreamState).current_pos ≤
      (⟨0, 0, 42, []⟩ : StreamState).abs_pos :=
  C5_pos_invariant charModelPT echoEosEng mtArgs 0 ["a"] rfl
    ⟨0, 0, 42, []⟩ (by decide)

/-- Claim C6: `abs_pos` is reset to 0 by the stream callback only in
the non-multiturn end-of-sequence branch; on that transition, when
deterministic, the RNG is reseeded to its fixed value 42; and when
`multiturn` is true the end-of-sequence classification leaves `abs_pos`
at the per-token incremented value, changing nothing further. -/
theorem C6_reset_policy (tok : Tokenizer) (args : Args) (p : Nat)
    (s : StreamState) (t : Int) :
    ((streamToken tok args p s t).abs_pos = 0 →
      args.multiturn = false ∧ t = EOS_ID) ∧
    (args.multiturn = false → t = EOS_ID → p ≤ s.current_pos + 1 →
      (streamToken tok args p s t).abs_pos = 0 ∧
      (args.deterministic = true → (streamToken tok args p s t).rng = 42)) ∧
    (args.multiturn = true →
      (streamToken tok args p s t).abs_pos = s.abs_pos + 1) := by
  refine ⟨?_, ?_, ?_⟩
  · intro h0
    obtain ⟨_, habs⟩ := streamToken_counters tok args p s t
    rcases habs with h1 | ⟨_, hm, ht, _⟩
    · omega
    · exact ⟨hm, ht⟩
  · intro hm ht hp
    exact streamToken_eos_reset tok args p s t hm ht hp
  · intro hmt
    obtain ⟨_, habs⟩ := streamToken_counters tok args p s t
    rcases habs with h1 | ⟨_, hm, _, _⟩
    · exact h1
    · rw [hm] at hmt
      cases hmt

/-- Claim C6, witness: a concrete end-of-sequence event in a
non-multiturn deterministic session zeroes `abs_pos` and reseeds to 42,
while the same event in a multiturn session only increments
`abs_pos`. -/
theorem C6_reset_policy_witness :
    (streamToken charTok detArgs 2 ⟨2, 2, 7, []⟩ EOS_ID).abs_pos = 0 ∧
    (streamToken charTok detArgs 2 ⟨2, 2, 7, []⟩ EOS_ID).rng = 42 ∧
    (streamToken charTok mtArgs 2 ⟨2, 2, 7, []⟩ EOS_ID).abs_pos = 2 + 1 :=
  ⟨((C6_reset_policy charTok detArgs 2 ⟨2, 2, 7, []⟩ EOS_ID).2.1
      rfl rfl (by decide)).1,
   ((C6_reset_policy charTok detArgs 2 ⟨2, 2, 7, []⟩ EOS_ID).2.1
      rfl rfl (by decide)).2 rfl,
   (C6_reset_policy charTok mtArgs 2 ⟨2, 2, 7, []⟩ EOS_ID).2.2 rfl⟩

/-- Claim C7: with `max_tokens = M`, once `abs_pos ≥ M` the session
loop terminates immediately — no line is read, no generation turn is
started (the turn count is unchanged) — and it exits through the normal
budget path, emitting the informational message that names the exceeded
budget. -/
theorem C7_budget_termination (m : Model) (eng : Engine) (args : Args)
    (inputs : List String) (s : StreamState) (turns : Nat)
    (log : List TurnEntry) (trace : List StreamState)
    (h : args.max_tokens ≤ s.abs_pos) :
    sessionLoop m eng args inputs s turns log trace =
      ⟨s, turns, log, trace ++ [s], ExitKind.budget,
        some (budgetMessage args.max_tokens)⟩ := by
  have hn : ¬s.abs_pos < args.max_tokens := by omega
  cases inputs <;> simp [sessionLoop, hn]

/-- Claim C7, witness: a session whose state already exceeds the budget
of 5 exits at once with the budget message. -/
theorem C7_budget_termination_witness :
    sessionLoop charModelPT echoEng ⟨5, false, true⟩ ["x"]
      ⟨7, 0, 42, []⟩ 3 [] [] =
      ⟨⟨7, 0, 42, []⟩, 3, [], [⟨7, 0, 42, []⟩], ExitKind.budget,
        some (budgetMessage 5)⟩ :=
  C7_budget_termination charModelPT echoEng ⟨5, false, true⟩ ["x"]
    ⟨7, 0, 42, []⟩ 3 [] [] (by decide)

/-- Claim C8: under an unexhausted budget, a read input line terminates
the session loop without further generation exactly when it is one of
the two literal quit sentinels "%q" and "%Q"; any other line starts a
generation turn; an exhausted input source also terminates the loop;
and concretely, input ["hello", "%q"] performs exactly one generation
turn and then terminates via the quit path. -/
theorem C8_quit_sentinel (m : Model) (eng : Engine) (args : Args)
    (line : String) (rest : List String) (s : StreamState) (turns : Nat)
    (log : List TurnEntry) (trace : List StreamState)
    (hb : s.abs_pos < args.max_tokens) :
    (isQuit line = true ↔ (line = "%q" ∨ line = "%Q")) ∧
    (isQuit line = true →
      sessionLoop m eng args (line :: rest) s turns log trace =
        ⟨{ s with current_pos := 0 }, turns, log,
          trace ++ [{ s with current_pos := 0 }], ExitKind.quit, none⟩) ∧
    (isQuit line = false →
      turns + 1 ≤
        (sessionLoop m eng args (line :: rest) s turns log trace).turns) ∧
    (sessionLoop m eng args [] s turns log trace =
      ⟨{ s with current_pos := 0 }, turns, log,
        trace ++ [{ s with current_pos := 0 }], ExitKind.quit, none⟩) ∧
    ((ReplGemma charModelPT echoEng detArgs 0 ["hello", "%q"]).turns = 1 ∧
      (ReplGemma charModelPT echoEng detArgs 0 ["hello", "%q"]).exit =
        ExitKind.quit) := by
  refine ⟨?_, ?_, ?_, ?_, rfl, rfl⟩
  · simp [isQuit]
  · intro hq
    simp [sessionLoop, hb, hq]
  · intro hq
    have hnq : ¬(isQuit line = true) := by simp [hq]
    simp only [sessionLoop, if_pos hb, if_neg hnq]
    exact sessionLoop_turns_le m eng args rest _ _ _ _
  · simp [sessionLoop, hb]

/-- Claim C8, witness: reading "%q" with budget remaining terminates
the loop at once with no generation. -/
theorem C8_quit_sentinel_witness :
    sessionLoop charModelPT echoEng detArgs ["%q"] ⟨0, 0, 42, []⟩ 0 [] [] =
      ⟨⟨0, 0, 42, []⟩, 0, [], [⟨0, 0, 42, []⟩], ExitKind.quit, none⟩ :=
  (C8_quit_sentinel charModelPT echoEng detArgs "%q" [] ⟨0, 0, 42, []⟩
    0 [] [] (by decide)).2.1 rfl

/-- Claim C9: the completion service takes the caller's prompt string
by reference and, for an instruction-tuned model, overwrites it with
the formatted version wrapped in the turn markers; after the call the
string is the wrapped text, whose length exceeds the original's by the
55 marker characters, so the caller's string remains modified. -/
theorem C9_prompt_mutation (m : Model) (eng : Engine) (args : Args)
    (rd : Nat) (p : String) (hIT : m.training = ModelTraining.GEMMA_IT) :
    (completion m eng args rd p).promptStringAfter =
      "<start_of_turn>user\n" ++ p ++
        "<end_of_turn>\n<start_of_turn>model\n" ∧
    (completion m eng args rd p).promptStringAfter.length =
      p.length + 55 := by
  have h1 : (completion m eng args rd p).promptStringAfter =
      "<start_of_turn>user\n" ++ p ++
        "<end_of_turn>\n<start_of_turn>model\n" := by
    simp [completion, decode, formatCompletionPrompt, hIT]
  refine ⟨h1, ?_⟩
  rw [h1]
  have h2 : ("<start_of_turn>user\n" : String).length = 20 := rfl
  have h3 : ("<end_of_turn>\n<start_of_turn>model\n" : String).length = 35 :=
    rfl
  simp only [String.length_append, h2, h3]
  omega

/-- Claim C9, witness: a concrete instruction-tuned completion call
leaves the prompt string wrapped. -/
theorem C9_prompt_mutation_witness :
    (completion charModelIT seedEng detArgs 0 "hi").promptStringAfter =
      "<start_of_turn>user\n" ++ "hi" ++
        "<end_of_turn>\n<start_of_turn>model\n" :=
  (C9_prompt_mutation charModelIT seedEng detArgs 0 "hi" rfl).1

/-- Claim C10: the completion service returns a string exactly when the
decoded accumulated text is at least as long as the formatted prompt
string; when the engine emits too few tokens the substring extraction
is out of range and the call aborts (`none`) instead of returning — in
particular with zero callback invocations and the non-empty prompt
"hi". -/
theorem C10_trim_range (m : Model) (eng : Engine) (args : Args)
    (rd : Nat) (p : String) :
    ((decode m eng args rd p).result = none ↔
      (m.tok.decode
        (eng (m.tok.encode (formatCompletionPrompt m.training p)) 0
          args.max_tokens rd)).length <
        (formatCompletionPrompt m.training p).length) ∧
    (decode charModelPT emptyEng detArgs 0 "hi").result = none := by
  refine ⟨?_, rfl⟩
  simp only [decode, foldl_push_eq_append, List.nil_append]
  by_cases hle : (formatCompletionPrompt m.training p).length ≤
      (m.tok.decode
        (eng (m.tok.encode (formatCompletionPrompt m.training p)) 0
          args.max_tokens rd)).length
  · rw [if_pos hle]
    constructor
    · intro hc
      exact absurd hc (Option.some_ne_none _)
    · intro hlt
      exact absurd hlt (Nat.not_lt.mpr hle)
  · rw [if_neg hle]
    constructor
    · intro _
      omega
    · intro _
      rfl

end GemmaBinding
